import Mathlib

/-!
Verification of the powerful_ocr repository: shallow embedding of the cache
manager (cache_manager.py), retry manager and circuit breaker
(retry_manager.py), PDF splitter (file_splitter.py), image preprocessor
(image_preprocessor.py) and the Gemini text-correction stage (main.py),
with theorems settling the specification's claims about them.

Modelling conventions:
* Python floats (mtimes, datetimes, delays, sizes in MB) are modelled as
  rationals; timestamps are seconds.
* Python dicts are association lists with distinct keys, in insertion
  order, as CPython guarantees; `dictSet` overwrites in place or appends,
  `alookup` finds the entry of a key.
* MD5/SHA256 fingerprints are modelled injectively: the "hash" of a datum
  is the datum itself, so two fingerprints are equal exactly when the
  fingerprinted data are equal.
* `sorted`/`list.sort` is a stable comparison sort; we use Mathlib's stable
  `List.insertionSort`, which agrees with every stable sort for the same
  total preorder, and our theorems about sorted data only ever compare
  entries with pairwise distinct keys.
-/

/-- Association-list lookup, the model of Python `d[k]` / `k in d` on dicts
(keys are unique). -/
def alookup {K V : Type} [DecidableEq K] (l : List (K × V)) (k : K) : Option V :=
  (l.find? (fun kv => kv.1 = k)).map (·.2)

/-- Python `d[k] = v` on a dict: overwrite in place when the key is present,
append otherwise. -/
def dictSet {K V : Type} [DecidableEq K] (l : List (K × V)) (k : K) (v : V) :
    List (K × V) :=
  if l.any (fun kv => kv.1 = k) then
    l.map (fun kv => if kv.1 = k then (k, v) else kv)
  else l ++ [(k, v)]

/-- Python `str.strip()` on the character list: drop whitespace from both
ends. -/
def pyStripChars (s : List Char) : List Char :=
  ((s.dropWhile Char.isWhitespace).reverse.dropWhile Char.isWhitespace).reverse

/-- Python `str.strip()`. -/
def pyStrip (s : String) : String :=
  String.mk (pyStripChars s.data)

/-- Lexicographic comparison of character lists by code point: how CPython
compares two `str` values. -/
def lexLe : List Char → List Char → Bool
  | [], _ => true
  | _ :: _, [] => false
  | a :: as, b :: bs =>
    if a < b then true else if b < a then false else lexLe as bs

/-- Python `s <= t` on strings. -/
def strLe (a b : String) : Bool :=
  lexLe a.data b.data

/-- Does the pattern occur as a contiguous subsequence? (Python `pat in s`.) -/
def occursIn (pat : List Char) : List Char → Bool
  | [] => pat.isEmpty
  | c :: rest => (pat.isPrefixOf (c :: rest)) || occursIn pat rest

/-! ## cache_manager.py -/

/-- `CacheStatus` (cache_manager.py lines 24-31). -/
inductive CStatus
  | pending
  | processing
  | completed
  | failed
  | expired
  | corrupted
deriving DecidableEq, Repr

/-- `CacheConfig` (cache_manager.py lines 66-77); the directory paths,
compression flag and cleanup interval govern I/O encodings that have no
observable effect on the values modelled here. -/
structure CacheConfig where
  maxCacheSizeGb : ℚ := 5
  maxCacheAgeDays : ℕ := 30
  maxEntries : ℕ := 1000
  cacheVersion : String := "v1.0"
  autoCleanup : Bool := true
  preserveRecent : ℕ := 100
deriving DecidableEq

/-- A source file as `file_path.stat()` and the 1MB head read by
`_calculate_file_hash` see it: name, byte size, mtime (seconds) and the
hashed head of the content. -/
structure SrcFile where
  name : String
  size : ℕ
  mtime : ℚ
  head : String
deriving DecidableEq

/-- The data `_generate_cache_key` (lines 109-131) fingerprints into the
SHA256 key: hashing is modelled injectively, so the key is the tuple
itself. `configStr` is `json.dumps(config, sort_keys=True)`. -/
structure CKey where
  fileName : String
  fileSize : ℕ
  fileMtime : ℚ
  fileHead : String
  configStr : String
  ocrService : String
  terminology : String
  pageStart : ℤ
  pageEnd : ℤ
  version : String
deriving DecidableEq

/-- `CacheMetadata` (cache_manager.py lines 42-63). `file_hash` keeps the
fingerprinted data (injective hash model); `processing_config` is kept as
its serialized form. -/
structure CMeta where
  filePath : String
  fileHash : SrcFile
  fileSize : ℕ
  fileMtime : ℚ
  createdTime : ℚ
  lastAccessed : ℚ
  accessCount : ℕ
  processingConfig : String
  ocrService : String
  terminologyHash : String
  pageStart : ℤ
  pageEnd : ℤ
  status : CStatus
  errorMessage : Option String := none
  retryCount : ℕ := 0
  maxRetries : ℕ := 3
  processingTime : ℚ := 0
  outputSize : ℕ := 0
deriving DecidableEq

/-- The manager's observable state: the metadata dict and the payload files
under `cache/data` (key ↦ pickled result). -/
structure CacheState where
  metadata : List (CKey × CMeta)
  payload : List (CKey × String)
deriving DecidableEq

/-- `_generate_cache_key` (lines 109-131): the key data as a tuple. -/
def generateCacheKey (cfg : CacheConfig) (f : SrcFile)
    (configStr ocrService terminologyTerms : String) (pageRange : ℤ × ℤ) : CKey :=
  { fileName := f.name
    fileSize := f.size
    fileMtime := f.mtime
    fileHead := f.head
    configStr := configStr
    ocrService := ocrService
    terminology := terminologyTerms
    pageStart := pageRange.1
    pageEnd := pageRange.2
    version := cfg.cacheVersion }

/-- `_is_expired` (lines 412-415): age strictly above `max_cache_age_days`
days. -/
def isExpired (cfg : CacheConfig) (now : ℚ) (m : CMeta) : Bool :=
  now - m.createdTime > (cfg.maxCacheAgeDays : ℚ) * 86400

/-- `has_cache` (lines 220-256) for a file that exists with stat `f`:
a `completed` entry under the key of the current file state whose recorded
size matches and recorded mtime is within 1 second, whose payload file is
on disk, and which is not expired. -/
def hasCache (cfg : CacheConfig) (now : ℚ) (st : CacheState) (f : SrcFile)
    (configStr ocrService terminologyTerms : String) (pageRange : ℤ × ℤ) : Bool :=
  let key := generateCacheKey cfg f configStr ocrService terminologyTerms pageRange
  match alookup st.metadata key with
  | none => false
  | some m =>
    decide (m.status = CStatus.completed) &&
    decide (f.size = m.fileSize) &&
    decide (|f.mtime - m.fileMtime| ≤ 1) &&
    (alookup st.payload key).isSome &&
    !(isExpired cfg now m)

/-- `_cleanup_old_entries` (lines 500-524): when the dict is over
`max_entries`, delete the `len - max_entries` least-recently-accessed
entries (payload files included). -/
def cleanupOldEntries (cfg : CacheConfig) (st : CacheState) : CacheState :=
  if st.metadata.length ≤ cfg.maxEntries then st
  else
    let sorted := List.insertionSort
      (fun a b : CKey × CMeta => a.2.lastAccessed ≤ b.2.lastAccessed) st.metadata
    let removeCount := st.metadata.length - cfg.maxEntries
    let doomed := (sorted.take removeCount).map (·.1)
    { metadata := st.metadata.filter (fun kv => decide (kv.1 ∉ doomed))
      payload := st.payload.filter (fun kv => decide (kv.1 ∉ doomed)) }

/-- The `completed` metadata entry `set_cache` records (lines 325-342),
stamped with the file's current stat and the current time. -/
def setCacheMeta (now : ℚ) (f : SrcFile)
    (configStr ocrService terminologyTerms : String) (pageRange : ℤ × ℤ)
    (result : String) (processingTime : ℚ) : CMeta :=
  { filePath := f.name
    fileHash := f
    fileSize := f.size
    fileMtime := f.mtime
    createdTime := now
    lastAccessed := now
    accessCount := 0
    processingConfig := configStr
    ocrService := ocrService
    terminologyHash := terminologyTerms
    pageStart := pageRange.1
    pageEnd := pageRange.2
    status := CStatus.completed
    processingTime := processingTime
    outputSize := result.utf8ByteSize }

/-- `set_cache` (lines 299-357): write the payload, record a fresh
`completed` metadata entry stamped with the file's current stat and `now`,
then run `_cleanup_old_entries` when the entry count exceeds
`max_entries`. -/
def setCache (cfg : CacheConfig) (now : ℚ) (st : CacheState) (f : SrcFile)
    (configStr ocrService terminologyTerms : String) (pageRange : ℤ × ℤ)
    (result : String) (processingTime : ℚ) : CacheState :=
  let key := generateCacheKey cfg f configStr ocrService terminologyTerms pageRange
  let payload' := dictSet st.payload key result
  let m := setCacheMeta now f configStr ocrService terminologyTerms pageRange
    result processingTime
  let metadata' := dictSet st.metadata key m
  let st' : CacheState := { metadata := metadata', payload := payload' }
  if metadata'.length > cfg.maxEntries then cleanupOldEntries cfg st' else st'

/-- `get_cache` (lines 258-297): `None` without a valid cache; otherwise
read the payload, bump `last_accessed`/`access_count` and return the
stored result (a payload present on disk always unpickles in this model,
so the corrupted-on-read branch is unreachable here). -/
def getCache (cfg : CacheConfig) (now : ℚ) (st : CacheState) (f : SrcFile)
    (configStr ocrService terminologyTerms : String) (pageRange : ℤ × ℤ) :
    Option String × CacheState :=
  if hasCache cfg now st f configStr ocrService terminologyTerms pageRange then
    let key := generateCacheKey cfg f configStr ocrService terminologyTerms pageRange
    match alookup st.payload key with
    | some r =>
      let metadata' :=
        match alookup st.metadata key with
        | some m =>
          dictSet st.metadata key
            { m with lastAccessed := now, accessCount := m.accessCount + 1 }
        | none => st.metadata
      (some r, { st with metadata := metadata' })
    | none => (none, st)
  else (none, st)

/-- Why `cleanup` removes an entry in its first phase (lines 432-462):
expired, payload file missing, `corrupted`, or `failed` with retries
exhausted; `failed` entries with retries left are kept. -/
inductive RemovalWhy
  | isOld
  | missingOrCorrupted
  | failedOut
deriving DecidableEq, Repr

/-- Classification of one metadata entry by `cleanup`'s first phase,
following the source's `if`/`elif` chain. -/
def removalReason (cfg : CacheConfig) (now : ℚ) (payload : List (CKey × String))
    (kv : CKey × CMeta) : Option RemovalWhy :=
  if isExpired cfg now kv.2 then some .isOld
  else if (alookup payload kv.1).isNone then some .missingOrCorrupted
  else if kv.2.status = CStatus.failed ∧ kv.2.maxRetries ≤ kv.2.retryCount then
    some .failedOut
  else if kv.2.status = CStatus.corrupted then some .missingOrCorrupted
  else none

/-- The removal counters `cleanup` returns (`bytes_freed`, a property of
the compressed pickle files, is not modelled). -/
structure CleanupStats where
  removedExpired : ℕ
  removedCorrupted : ℕ
  removedOld : ℕ
  removedFailed : ℕ
  totalRemoved : ℕ
deriving DecidableEq, Repr

/-- `cleanup` (lines 417-498): phase one removes expired / payload-missing /
corrupted / retries-exhausted-failed entries; if the survivors still
outnumber `max_entries`, phase two sorts them by `last_accessed`
descending and keeps only the first `min(max_entries, preserve_recent)`
of them. Both phases delete payload files along with metadata. -/
def cleanup (cfg : CacheConfig) (now : ℚ) (st : CacheState) :
    CacheState × CleanupStats :=
  let reason := removalReason cfg now st.payload
  let toRemove1 := (st.metadata.filter (fun kv => (reason kv).isSome)).map (·.1)
  let remaining := st.metadata.length - toRemove1.length
  let survivors := st.metadata.filter (fun kv => !(reason kv).isSome)
  let sorted := List.insertionSort
    (fun a b : CKey × CMeta => b.2.lastAccessed ≤ a.2.lastAccessed) survivors
  let keepCount := min cfg.maxEntries cfg.preserveRecent
  let toRemove2 :=
    if cfg.maxEntries < remaining then (sorted.drop keepCount).map (·.1) else []
  let doomed := toRemove1 ++ toRemove2
  let stats : CleanupStats :=
    { removedExpired := (st.metadata.filter (fun kv => reason kv = some .isOld)).length
      removedCorrupted :=
        (st.metadata.filter (fun kv => reason kv = some .missingOrCorrupted)).length
      removedOld := toRemove2.length
      removedFailed := (st.metadata.filter (fun kv => reason kv = some .failedOut)).length
      totalRemoved := doomed.length }
  (⟨st.metadata.filter (fun kv => decide (kv.1 ∉ doomed)),
    st.payload.filter (fun kv => decide (kv.1 ∉ doomed))⟩, stats)

/-! ## retry_manager.py -/

/-- `RetryReason` (retry_manager.py lines 22-31). -/
inductive RetryReason
  | networkError
  | apiRateLimit
  | apiError
  | timeoutHit
  | memoryError
  | fileError
  | processingError
  | unknownError
deriving DecidableEq, Repr

/-- `RetryConfig` (lines 34-45). -/
structure RetryConfig where
  maxRetries : ℕ := 3
  baseDelay : ℚ := 1
  maxDelay : ℚ := 300
  exponentialBase : ℚ := 2
  jitter : Bool := true
  enableCircuitBreaker : Bool := true
  circuitFailureThreshold : ℕ := 5
  circuitRecoveryTime : ℕ := 300
deriving DecidableEq

/-- `_calculate_delay` (lines 178-195). `random.uniform(0.5, 1.5)` is the
`jitterFactor` argument; with jitter disabled the factor is ignored. -/
def calculateDelay (cfg : RetryConfig) (attemptNumber : ℕ)
    (errorType : RetryReason) (jitterFactor : ℚ) : ℚ :=
  let delay :=
    if errorType = RetryReason.apiRateLimit then
      cfg.baseDelay * cfg.exponentialBase ^ attemptNumber * 2
    else
      cfg.baseDelay * cfg.exponentialBase ^ attemptNumber
  let delay := min delay cfg.maxDelay
  if cfg.jitter then delay * jitterFactor else delay

/-- `timedelta.seconds` of `now - last` in Python: the seconds component of
the period, i.e. the floor of the total seconds reduced modulo one day
(86400). It is NOT the total number of elapsed seconds. -/
def tdSeconds (delta : ℚ) : ℤ :=
  ⌊delta⌋ % 86400

/-- `CircuitBreaker`'s mutable fields (lines 78-87); `state` keeps the
source's string values "closed" / "open" / "half_open". -/
structure Breaker where
  failureThreshold : ℕ := 5
  recoveryTime : ℕ := 300
  failureCount : ℕ := 0
  lastFailureTime : Option ℚ := none
  state : String := "closed"
deriving DecidableEq, Repr

/-- The body of `CircuitBreaker.call` after the open-state gate: run the
wrapped function (its outcome is the `outcome` oracle), reset on a
half-open success, count and re-raise on failure (lines 98-111). -/
def breakerRun (b : Breaker) (now : ℚ) (outcome : Except String String) :
    Breaker × Except String String :=
  match outcome with
  | .ok v =>
    if b.state = "half_open" then
      ({ b with state := "closed", failureCount := 0 }, .ok v)
    else (b, .ok v)
  | .error e =>
    let fc := b.failureCount + 1
    ({ b with
        failureCount := fc
        lastFailureTime := some now
        state := if b.failureThreshold ≤ fc then "open" else b.state },
      .error e)

/-- `CircuitBreaker.call` (lines 89-111). The third component records
whether the wrapped function was invoked. In the open state the gate
compares `(datetime.now() - self.last_failure_time).seconds` — the
day-wrapped seconds component — against `recovery_time`. An open breaker
with no recorded failure time would raise a `TypeError` on the
subtraction; that state is unreachable (opening always records a time). -/
def breakerCall (b : Breaker) (now : ℚ) (outcome : Except String String) :
    Breaker × Except String String × Bool :=
  if b.state = "open" then
    match b.lastFailureTime with
    | some t =>
      if tdSeconds (now - t) < (b.recoveryTime : ℤ) then
        (b, .error "Circuit breaker is open", false)
      else
        let b' := { b with state := "half_open" }
        let (b'', r) := breakerRun b' now outcome
        (b'', r, true)
    | none => (b, .error "TypeError: unsupported operand", false)
  else
    let (b', r) := breakerRun b now outcome
    (b', r, true)

/-- Keys of `ProcessingState.partial_results` as Python values: `int` keys
are written by the processing loop, `str` keys come back from the JSON
round trip of a saved checkpoint (`json.dump` stringifies int dict keys
and `_load_processing_state` never converts them back). `int == str` is
always false in Python, so the two kinds never collide. -/
inductive PKey
  | intK (n : ℤ)
  | strK (s : String)
deriving DecidableEq, Repr

/-- `ProcessingState` (lines 59-75) restricted to the fields that determine
`process_with_recovery`'s observable behaviour; the wall-clock stamps and
the `retry_attempts` log are write-only for this function's result. -/
structure PState where
  completedPages : List ℤ
  failedPages : List ℤ
  currentPage : Option ℤ := none
  partialResults : List (PKey × String)
deriving DecidableEq, Repr

/-- The JSON round trip `_save_processing_state` then
`_load_processing_state` performs on a checkpoint: page-number lists
survive as ints, but the `partial_results` dict comes back with string
keys (`json.dump` turns `{3: t}` into `{"3": t}` and the loader converts
only the timestamps and retry records back). -/
def jsonRoundTrip (st : PState) : PState :=
  { st with
      partialResults := st.partialResults.map (fun kv =>
        match kv.1 with
        | .intK n => (PKey.strK (toString n), kv.2)
        | .strK s => (PKey.strK s, kv.2)) }

/-- Python `range(a, b + 1)` over integers, as a list. -/
def pageSeqZ (a b : ℤ) : List ℤ :=
  (List.range (b + 1 - a).toNat).map (fun i : ℕ => a + (i : ℤ))

/-- One iteration of `process_with_recovery`'s page loop (lines 358-385):
skip pages already in `completed_pages`; on success append the page,
record the result under the INT key, and drop the page from
`failed_pages`; on failure append to `failed_pages`. `pageResult` is the
outcome of `_process_page_with_retry` for the page (`None` = all retries
failed). -/
def recoveryStep (pageResult : ℤ → Option String) (st : PState) (page : ℤ) :
    PState :=
  if page ∈ st.completedPages then st
  else
    let st := { st with currentPage := some page }
    match pageResult page with
    | some r =>
      { st with
          completedPages := st.completedPages ++ [page]
          partialResults := dictSet st.partialResults (PKey.intK page) r
          failedPages := st.failedPages.erase page }
    | none => { st with failedPages := st.failedPages ++ [page] }

instance : DecidableEq (Except String String)
  | .ok a, .ok b =>
    if h : a = b then .isTrue (h ▸ rfl) else .isFalse (fun hc => h (Except.ok.inj hc))
  | .error a, .error b =>
    if h : a = b then .isTrue (h ▸ rfl) else .isFalse (fun hc => h (Except.error.inj hc))
  | .ok _, .error _ => .isFalse (fun hc => Except.noConfusion hc)
  | .error _, .ok _ => .isFalse (fun hc => Except.noConfusion hc)

/-- What `process_with_recovery` did, observably: the returned text or the
raised error, the final in-memory state, the combined text handed to
`set_cache` (if any), whether the checkpoint file was deleted, and the
message passed to `mark_failed` (if any). -/
structure RecoveryOutcome where
  result : Except String String
  finalState : PState
  cachedResult : Option String
  checkpointRemoved : Bool
  markedFailed : Option String
deriving DecidableEq, Repr

/-- Python `str` of an int list, e.g. `[3, 7]`. -/
def pyIntListStr (l : List ℤ) : String :=
  "[" ++ String.intercalate ", " (l.map toString) ++ "]"

/-- The `mark_failed` message of lines 410-414. -/
def partialFailureMsg (successCount : ℕ) (totalPages : ℤ) (failed : List ℤ) :
    String :=
  "部分页面处理失败: 成功 " ++ toString successCount ++ "/" ++ toString totalPages ++
    " 页, 失败页面: " ++ pyIntListStr failed

/-- `process_with_recovery` (lines 304-424) from the point where no cached
result exists and the checkpoint (or a fresh state) is in hand: run the
page loop over `range(start_page, end_page + 1)`; if every page is
completed, join the `partial_results` texts of the pages found under
their INT keys in ascending page order with a blank line, store the
combined text via `set_cache`, delete the checkpoint and return it;
otherwise mark the cache entry failed with a message naming the failed
pages and raise. -/
def processWithRecovery (startPage endPage : ℤ) (st0 : PState)
    (pageResult : ℤ → Option String) : RecoveryOutcome :=
  let totalPages := endPage - startPage + 1
  let pages := pageSeqZ startPage endPage
  let st := pages.foldl (recoveryStep pageResult) st0
  if (st.completedPages.length : ℤ) = totalPages then
    let results := pages.filterMap (fun p => alookup st.partialResults (PKey.intK p))
    let combined := String.intercalate "\n\n" results
    { result := .ok combined
      finalState := st
      cachedResult := some combined
      checkpointRemoved := true
      markedFailed := none }
  else
    let msg := partialFailureMsg st.completedPages.length totalPages st.failedPages
    { result := .error msg
      finalState := st
      cachedResult := none
      checkpointRemoved := false
      markedFailed := some msg }

/-! ## file_splitter.py -/

/-- `ChunkInfo` (file_splitter.py lines 47-58); `file_path` points into the
file system and is not part of the value model. -/
structure ChunkInfo where
  chunkId : String
  startPage : ℤ
  endPage : ℤ
  pageCount : ℤ
  estimatedSizeMb : ℚ
  status : String := "pending"
  ocrResult : Option String := none
  errorMessage : Option String := none
deriving DecidableEq, Repr

/-- `SplitConfig` (lines 33-44). -/
structure SplitConfig where
  maxPagesPerChunk : ℤ := 50
  maxSizePerChunkMb : ℤ := 100
  maxMemoryUsageMb : ℤ := 512
  minPagesPerChunk : ℤ := 5
  overlapPages : ℤ := 0
  preserveStructure : Bool := true
deriving DecidableEq

/-- Python `int()` on a float/rational: truncation toward zero. -/
def intTrunc (q : ℚ) : ℤ :=
  if 0 ≤ q then ⌊q⌋ else -(⌊-q⌋)

/-- `f"chunk_{chunk_id:03d}"`: zero-pad the decimal to width at least 3. -/
def chunkIdStr (n : ℕ) : String :=
  let s := toString n
  "chunk_" ++ (if s.length < 3 then String.mk (List.replicate (3 - s.length) '0') ++ s else s)

/-- The `while start_page <= page_count` loop shared verbatim by
`_split_by_pages` (lines 199-213), `_split_by_size` (lines 232-246) and
`_split_by_memory` (lines 266-280): emit a window of `window` pages
clamped to `page_count`, then restart at `end_page + 1 - overlap`.
The Python loop has no fuel; `fuel` bounds how many iterations we unfold,
and `none` means the loop was still running when the fuel ran out, so a
result `some l` for any fuel is exactly a terminating run. -/
def splitLoop (window overlap pageCount : ℤ) (avg : ℚ) :
    ℕ → ℤ → ℕ → Option (List ChunkInfo)
  | 0, startPage, _ => if startPage ≤ pageCount then none else some []
  | fuel + 1, startPage, idx =>
    if startPage ≤ pageCount then
      let endPage := min (startPage + window - 1) pageCount
      let actual := endPage - startPage + 1
      let c : ChunkInfo :=
        { chunkId := chunkIdStr idx
          startPage := startPage
          endPage := endPage
          pageCount := actual
          estimatedSizeMb := (actual : ℚ) * avg }
      (splitLoop window overlap pageCount avg fuel (endPage + 1 - overlap) (idx + 1)).map
        (fun rest => c :: rest)
    else some []

/-- `_split_by_pages` (lines 189-214): window = `max_pages_per_chunk`. -/
def splitByPages (cfg : SplitConfig) (pageCount : ℤ) (avgPageSize : ℚ)
    (fuel : ℕ) : Option (List ChunkInfo) :=
  splitLoop cfg.maxPagesPerChunk cfg.overlapPages pageCount avgPageSize fuel 1 1

/-- `_split_by_size` (lines 216-247): window from the size budget. -/
def splitBySize (cfg : SplitConfig) (pageCount : ℤ) (avgPageSize : ℚ)
    (fuel : ℕ) : Option (List ChunkInfo) :=
  let pagesPerChunk := max cfg.minPagesPerChunk
    (if avgPageSize > 0 then intTrunc ((cfg.maxSizePerChunkMb : ℚ) / avgPageSize)
     else cfg.maxPagesPerChunk)
  splitLoop pagesPerChunk cfg.overlapPages pageCount avgPageSize fuel 1 1

/-- `_split_by_memory` (lines 249-281): window from the memory budget. -/
def splitByMemory (cfg : SplitConfig) (pageCount : ℤ) (avgPageSize : ℚ)
    (estimatedMemory : ℚ) (fuel : ℕ) : Option (List ChunkInfo) :=
  let memoryPerPage := if pageCount > 0 then estimatedMemory / (pageCount : ℚ) else 2
  let safePages := max cfg.minPagesPerChunk
    (if memoryPerPage > 0 then intTrunc ((cfg.maxMemoryUsageMb : ℚ) / memoryPerPage)
     else 10)
  splitLoop safePages cfg.overlapPages pageCount avgPageSize fuel 1 1

/-- `_intelligent_merge` (lines 379-403): number the sections when more
than one, strip each text, and append the processing summary when chunks
failed. -/
def intelligentMerge (results : List String) (failedChunks : List String) : String :=
  let sections := (List.range results.length).map (fun i =>
    match results.get? i with
    | some r =>
      if 1 < results.length then
        "\n\n---\n\n# 文档段落 " ++ toString (i + 1) ++ "\n\n" ++ pyStrip r
      else pyStrip r
    | none => "")
  let merged := String.join sections
  if failedChunks.isEmpty then merged
  else
    merged ++ "\n\n---\n\n## 处理摘要\n\n" ++
      "- 成功处理段落: " ++ toString results.length ++ "\n" ++
      "- 失败段落: " ++ toString failedChunks.length ++ "\n" ++
      "- 失败的段落ID: " ++ String.intercalate ", " failedChunks ++ "\n"

/-- Does the chunk contribute its text: status `completed` and a truthy
(non-`None`, non-empty) `ocr_result`. -/
def chunkSuccessText (c : ChunkInfo) : Option String :=
  match c.ocrResult with
  | some r => if c.status = "completed" ∧ r ≠ "" then some r else none
  | none => none

/-- `merge_ocr_results` (lines 349-377): empty input yields `""`; otherwise
sort by `chunk_id` (string order), collect the successful texts and the
failed chunk ids in that order, raise `ValueError` when no text was
collected, and merge (intelligently when `preserve_structure`). -/
def mergeOcrResults (chunks : List ChunkInfo) (preserveStructure : Bool) :
    Except String String :=
  if chunks.isEmpty then .ok ""
  else
    let sorted := List.insertionSort
      (fun a b : ChunkInfo => strLe a.chunkId b.chunkId = true) chunks
    let successfulResults := sorted.filterMap chunkSuccessText
    let failedChunks :=
      (sorted.filter (fun c =>
        (chunkSuccessText c).isNone && decide (c.status = "failed"))).map (·.chunkId)
    if successfulResults.isEmpty then .error "没有成功的OCR结果可以合并"
    else if preserveStructure then
      .ok (intelligentMerge successfulResults failedChunks)
    else .ok (String.intercalate "\n\n" successfulResults)

/-! ## image_preprocessor.py -/

/-- A PIL image by mode: `RGB`, `RGBA`, `L` (grayscale), or any other mode
(`P`, `CMYK`, ...) represented by the pixels of its `convert("RGB")`
image, which is all `_pil_to_cv2` uses of it. Pixels are channel tuples
in row-major order. -/
inductive PILImage
  | rgb (pix : List (ℕ × ℕ × ℕ))
  | rgba (pix : List (ℕ × ℕ × ℕ × ℕ))
  | l (pix : List ℕ)
  | otherMode (convertedRgb : List (ℕ × ℕ × ℕ))
deriving DecidableEq, Repr

/-- An OpenCV ndarray: 3-channel BGR or single-channel grayscale. -/
inductive CVImage
  | color (pix : List (ℕ × ℕ × ℕ))
  | gray (pix : List ℕ)
deriving DecidableEq, Repr

/-- `_pil_to_cv2` (lines 179-188): RGB→BGR channel swap, RGBA→BGR dropping
alpha, `L` kept single-channel, anything else converted to RGB first. -/
def pilToCv2 : PILImage → CVImage
  | .rgb pix => .color (pix.map (fun p => (p.2.2, p.2.1, p.1)))
  | .rgba pix => .color (pix.map (fun p => (p.2.2.1, p.2.1, p.1)))
  | .l pix => .gray pix
  | .otherMode pix => .color (pix.map (fun p => (p.2.2, p.2.1, p.1)))

/-- `_cv2_to_pil` (lines 190-195): 3-channel becomes an RGB image,
2-dimensional becomes `L`. -/
def cv2ToPil : CVImage → PILImage
  | .color pix => .rgb (pix.map (fun p => (p.2.2, p.2.1, p.1)))
  | .gray pix => .l pix

/-- `PreprocessingConfig` (lines 25-50); the mode keeps the enum's string
value. -/
structure PreprocessingConfig where
  mode : String := "document"
  enableNoiseReduction : Bool := true
  enableSharpening : Bool := true
  enableContrastEnhancement : Bool := true
  enableDeskewing : Bool := true
  enablePerspectiveCorrection : Bool := true
  noiseReductionStrength : ℚ := 1
  sharpeningStrength : ℚ := 1
  contrastFactor : ℚ := 6 / 5
  brightnessFactor : ℚ := 1
  outputDpi : ℤ := 300
  binarization : Bool := false
  grayscale : Bool := false
deriving DecidableEq

/-- `_apply_mode_preset` (lines 134-177). -/
def applyModePreset (cfg : PreprocessingConfig) : PreprocessingConfig :=
  if cfg.mode = "none" then
    { cfg with
        enableNoiseReduction := false
        enableSharpening := false
        enableContrastEnhancement := false
        enableDeskewing := false
        enablePerspectiveCorrection := false }
  else if cfg.mode = "basic" then
    { cfg with
        noiseReductionStrength := 4 / 5
        sharpeningStrength := 4 / 5
        contrastFactor := 11 / 10
        enableDeskewing := false
        enablePerspectiveCorrection := false }
  else if cfg.mode = "document" then
    { cfg with
        noiseReductionStrength := 1
        sharpeningStrength := 6 / 5
        contrastFactor := 13 / 10
        brightnessFactor := 21 / 20
        enableDeskewing := true
        binarization := true }
  else if cfg.mode = "photo" then
    { cfg with
        noiseReductionStrength := 6 / 5
        sharpeningStrength := 1
        contrastFactor := 6 / 5
        enablePerspectiveCorrection := true
        enableDeskewing := true }
  else if cfg.mode = "aggressive" then
    { cfg with
        noiseReductionStrength := 3 / 2
        sharpeningStrength := 2
        contrastFactor := 3 / 2
        brightnessFactor := 11 / 10
        enableDeskewing := true
        enablePerspectiveCorrection := true
        binarization := true }
  else cfg

/-- The OpenCV-backed pixel transformations `preprocess_image` dispatches
to (`_correct_geometry`, `_reduce_noise`, `_enhance_contrast`,
`_sharpen_image`, `_binarize_image`, `cv2.cvtColor(..., BGR2GRAY)`,
`_adjust_dpi`): numerical image filters taken as oracles, since no claim
concerns their pixel arithmetic. `correctGeometry` also returns the list
of corrections applied. -/
structure CVOps where
  correctGeometry : PreprocessingConfig → CVImage → CVImage × List String
  reduceNoise : PreprocessingConfig → CVImage → CVImage
  enhanceContrast : PreprocessingConfig → CVImage → CVImage
  sharpenImage : PreprocessingConfig → CVImage → CVImage
  binarizeImage : CVImage → CVImage
  bgrToGray : CVImage → CVImage
  adjustDpi : PreprocessingConfig → PILImage → PILImage

/-- Is the ndarray 3-channel (`len(cv_image.shape) == 3`)? -/
def isColorImage : CVImage → Bool
  | .color _ => true
  | .gray _ => false

/-- `preprocess_image` (lines 59-132): convert to OpenCV form, apply the
mode preset, run the enabled stages in order (geometry, noise, contrast,
sharpening, binarization, grayscale), convert back, and adjust DPI when
`output_dpi != 300`; returns the image and the `operations_applied`
list of the stats dict (sizes, timing and the quality score are
wall-clock/cv2 measurements outside this model). -/
def preprocessImage (ops : CVOps) (cfg0 : PreprocessingConfig) (image : PILImage) :
    PILImage × List String :=
  let cv := pilToCv2 image
  let cfg := applyModePreset cfg0
  let s1 : CVImage × List String :=
    if cfg.enableDeskewing || cfg.enablePerspectiveCorrection then
      ops.correctGeometry cfg cv
    else (cv, [])
  let s2 : CVImage × List String :=
    if cfg.enableNoiseReduction then
      (ops.reduceNoise cfg s1.1, s1.2 ++ ["noise_reduction"])
    else s1
  let s3 : CVImage × List String :=
    if cfg.enableContrastEnhancement then
      (ops.enhanceContrast cfg s2.1, s2.2 ++ ["contrast_enhancement"])
    else s2
  let s4 : CVImage × List String :=
    if cfg.enableSharpening then
      (ops.sharpenImage cfg s3.1, s3.2 ++ ["sharpening"])
    else s3
  let s5 : CVImage × List String :=
    if cfg.binarization then
      (ops.binarizeImage s4.1, s4.2 ++ ["binarization"])
    else s4
  let s6 : CVImage × List String :=
    if cfg.grayscale && isColorImage s5.1 then
      (ops.bgrToGray s5.1, s5.2 ++ ["grayscale_conversion"])
    else s5
  let processed := cv2ToPil s6.1
  if cfg.outputDpi ≠ 300 then
    (ops.adjustDpi cfg processed, s6.2 ++ ["dpi_adjustment"])
  else (processed, s6.2)

/-! ## main.py: the Gemini text-correction stage -/

/-- The token-usage counters of the correction stage. A Python usage dict
is read by every caller through `usage.get(key, 0)` (main.py lines
917-920, 1059-1062), so the empty dict `{}` and the explicit
all-zero dict denote the same counters and both map to `zeroUsage`. -/
structure TokenUsage where
  inputTokens : ℕ
  outputTokens : ℕ
  totalTokens : ℕ
deriving DecidableEq, Repr

/-- The usage dict of a correction that never happened. -/
def zeroUsage : TokenUsage :=
  ⟨0, 0, 0⟩

/-- `correct_text_with_gemini` (main.py lines 765-835). `primaryCall` is
the outcome of the third-party network call: its response text and
usage, or the exception it raised. The function catches every exception
and falls back to the unmodified input with empty usage, so it never
raises. -/
def correctTextWithGemini (primaryCall : Except String (String × TokenUsage))
    (ocrText : String) : String × TokenUsage :=
  match primaryCall with
  | .ok (content, usage) => (pyStrip content, usage)
  | .error _ => (ocrText, zeroUsage)

/-- The official-SDK fallback block of `correct_text_with_gemini_streaming`
(main.py lines 1125-1222): the fallback call's text and usage on success,
the original text with explicit zero usage when it too fails. -/
def officialGeminiFallback (fallbackCall : Except String (String × TokenUsage))
    (text : String) : String × TokenUsage :=
  match fallbackCall with
  | .ok (content, usage) => (content, usage)
  | .error _ => (text, zeroUsage)

/-- `correct_text_with_gemini_streaming` (main.py lines 1100-1222) together
with the number of network calls attempted: unset credentials
short-circuit to the unmodified text with zero usage and no call;
otherwise the stage returns what `correct_text_with_gemini` returns
after one call attempt. Because `correct_text_with_gemini` catches every
exception internally, the `except` branch that would run
`officialGeminiFallback` is unreachable, and the stage as a whole never
raises. -/
def correctTextWithGeminiStreaming (apiKey baseUrl : String)
    (primaryCall : Except String (String × TokenUsage))
    (text : String) : (String × TokenUsage) × ℕ :=
  if apiKey = "" || baseUrl = "" then ((text, zeroUsage), 0)
  else (correctTextWithGemini primaryCall text, 1)

/-! ## Dictionary lemmas -/

theorem alookup_nil {K V : Type} [DecidableEq K] (k : K) :
    alookup ([] : List (K × V)) k = none := by
  simp [alookup]

theorem alookup_cons {K V : Type} [DecidableEq K] (x : K × V) (xs : List (K × V)) (k : K) :
    alookup (x :: xs) k = if x.1 = k then some x.2 else alookup xs k := by
  by_cases h : x.1 = k
  · simp [alookup, List.find?_cons_of_pos, h]
  · simp only [alookup, List.find?]
    simp [h]

theorem alookup_overwrite {K V : Type} [DecidableEq K] (l : List (K × V)) (k : K) (v : V)
    (h : l.any (fun kv => decide (kv.1 = k)) = true) :
    alookup (l.map (fun kv => if kv.1 = k then (k, v) else kv)) k = some v := by
  induction l with
  | nil => simp at h
  | cons hd tl ih =>
    by_cases hk : hd.1 = k
    · simp [alookup_cons, hk]
    · have h' : tl.any (fun kv => decide (kv.1 = k)) = true := by
        simpa [List.any_cons, hk] using h
      simpa [alookup_cons, hk] using ih h'

theorem alookup_append_one {K V : Type} [DecidableEq K] (l : List (K × V)) (k : K) (v : V)
    (h : l.any (fun kv => decide (kv.1 = k)) = false) :
    alookup (l ++ [(k, v)]) k = some v := by
  induction l with
  | nil => simp [alookup_cons]
  | cons hd tl ih =>
    have hk : ¬ hd.1 = k := by
      intro hc
      simp [List.any_cons, hc] at h
    have h' : tl.any (fun kv => decide (kv.1 = k)) = false := by
      simpa [List.any_cons, hk] using h
    simpa [alookup_cons, hk] using ih h'

theorem alookup_dictSet_self {K V : Type} [DecidableEq K] (l : List (K × V)) (k : K) (v : V) :
    alookup (dictSet l k v) k = some v := by
  unfold dictSet
  by_cases h : l.any (fun kv => decide (kv.1 = k)) = true
  · simpa [h] using alookup_overwrite l k v h
  · have hf : l.any (fun kv => decide (kv.1 = k)) = false := Bool.eq_false_iff.mpr h
    simpa [hf] using alookup_append_one l k v hf

theorem alookup_map_ne {K V : Type} [DecidableEq K] (l : List (K × V)) (k k' : K) (v : V)
    (h : k' ≠ k) :
    alookup (l.map (fun kv => if kv.1 = k then (k, v) else kv)) k' = alookup l k' := by
  induction l with
  | nil => simp
  | cons hd tl ih =>
    by_cases hk : hd.1 = k
    · have h2 : ¬ (hd.1 = k') := by
        rw [hk]
        exact fun hc => h hc.symm
      have h1 : ¬ ((k, v).1 = k') := fun hc => h hc.symm
      rw [List.map_cons, if_pos hk, alookup_cons, if_neg h1, alookup_cons, if_neg h2]
      exact ih
    · rw [List.map_cons, if_neg hk, alookup_cons, alookup_cons]
      by_cases hk' : hd.1 = k'
      · rw [if_pos hk', if_pos hk']
      · rw [if_neg hk', if_neg hk']
        exact ih

theorem alookup_append_one_ne {K V : Type} [DecidableEq K] (l : List (K × V)) (k k' : K) (v : V)
    (h : k' ≠ k) :
    alookup (l ++ [(k, v)]) k' = alookup l k' := by
  induction l with
  | nil =>
    have h1 : ¬ ((k, v).1 = k') := fun hc => h hc.symm
    simp [alookup_cons, h1]
  | cons hd tl ih =>
    rw [List.cons_append, alookup_cons, alookup_cons]
    by_cases hk' : hd.1 = k'
    · rw [if_pos hk', if_pos hk']
    · rw [if_neg hk', if_neg hk']
      exact ih

theorem alookup_dictSet_ne {K V : Type} [DecidableEq K] (l : List (K × V)) (k k' : K) (v : V)
    (h : k' ≠ k) :
    alookup (dictSet l k v) k' = alookup l k' := by
  unfold dictSet
  by_cases hany : l.any (fun kv => decide (kv.1 = k)) = true
  · simpa [hany] using alookup_map_ne l k k' v h
  · have hf : l.any (fun kv => decide (kv.1 = k)) = false := Bool.eq_false_iff.mpr hany
    simpa [hf] using alookup_append_one_ne l k k' v h

theorem dictSet_length_le {K V : Type} [DecidableEq K] (l : List (K × V)) (k : K) (v : V) :
    (dictSet l k v).length ≤ l.length + 1 := by
  unfold dictSet
  by_cases hany : l.any (fun kv => decide (kv.1 = k)) = true
  · simp [hany]
  · have hf : l.any (fun kv => decide (kv.1 = k)) = false := Bool.eq_false_iff.mpr hany
    simp [hf]

theorem alookup_of_mem_const {K V : Type} [DecidableEq K] (ks : List K) (v : V) (k : K)
    (hk : k ∈ ks) :
    alookup (ks.map (fun x => (x, v))) k = some v := by
  induction ks with
  | nil => simp at hk
  | cons hd tl ih =>
    by_cases h : hd = k
    · simp [alookup_cons, h]
    · have hk' : k ∈ tl := by
        rcases List.mem_cons.mp hk with h1 | h1
        · exact absurd h1.symm h
        · exact h1
      simpa [alookup_cons, h] using ih hk'

/-! ## Claim C2 -/

theorem setCache_no_eviction (cfg : CacheConfig) (st : CacheState) (f : SrcFile)
    (configStr svc term result : String) (pr : ℤ × ℤ) (t0 pt : ℚ)
    (hroom : st.metadata.length < cfg.maxEntries) :
    setCache cfg t0 st f configStr svc term pr result pt =
      ⟨dictSet st.metadata (generateCacheKey cfg f configStr svc term pr)
        (setCacheMeta t0 f configStr svc term pr result pt),
       dictSet st.payload (generateCacheKey cfg f configStr svc term pr) result⟩ := by
  have hle := dictSet_length_le st.metadata
    (generateCacheKey cfg f configStr svc term pr)
    (setCacheMeta t0 f configStr svc term pr result pt)
  have hcond : ¬ ((dictSet st.metadata (generateCacheKey cfg f configStr svc term pr)
      (setCacheMeta t0 f configStr svc term pr result pt)).length > cfg.maxEntries) := by
    omega
  simp only [setCache]
  rw [if_neg hcond]

/-- Claim C2: after a successful `set_cache(f, cfg, svc, term, pr, result, t)`
(into a cache with room, so that no count-based eviction fires), `has_cache`
with the identical arguments returns true and `get_cache` returns exactly
`result` (checked within the 30-day expiry window); and if the source
file's stat then changes — its size differs, or its mtime moves by more
than 1 second — `has_cache` returns false (the changed stat yields a fresh
cache key that has no metadata entry) even though the payload written for
the original stat still exists on disk. -/
theorem C2_set_cache_roundtrip_and_invalidation (cfg : CacheConfig)
    (st : CacheState) (f f' : SrcFile)
    (configStr svc term result : String) (pr : ℤ × ℤ) (t0 t1 pt : ℚ)
    (hroom : st.metadata.length < cfg.maxEntries)
    (hage : t1 - t0 ≤ (cfg.maxCacheAgeDays : ℚ) * 86400)
    (hdiff : f'.size ≠ f.size ∨ 1 < |f'.mtime - f.mtime|)
    (hnew : alookup st.metadata (generateCacheKey cfg f' configStr svc term pr) = none) :
    hasCache cfg t1 (setCache cfg t0 st f configStr svc term pr result pt)
      f configStr svc term pr = true ∧
    (getCache cfg t1 (setCache cfg t0 st f configStr svc term pr result pt)
      f configStr svc term pr).1 = some result ∧
    hasCache cfg t1 (setCache cfg t0 st f configStr svc term pr result pt)
      f' configStr svc term pr = false ∧
    alookup (setCache cfg t0 st f configStr svc term pr result pt).payload
      (generateCacheKey cfg f configStr svc term pr) = some result := by
  have hst1 := setCache_no_eviction cfg st f configStr svc term result pr t0 pt hroom
  set key := generateCacheKey cfg f configStr svc term pr with hkeydef
  set key' := generateCacheKey cfg f' configStr svc term pr with hkeydef'
  have hkk : key' ≠ key := by
    intro hc
    rcases hdiff with h | h
    · exact h (congrArg CKey.fileSize hc)
    · have hm : f'.mtime = f.mtime := congrArg CKey.fileMtime hc
      rw [hm, sub_self, abs_zero] at h
      exact absurd h (by norm_num)
  have hmd : alookup (setCache cfg t0 st f configStr svc term pr result pt).metadata key =
      some (setCacheMeta t0 f configStr svc term pr result pt) := by
    rw [hst1]
    exact alookup_dictSet_self _ _ _
  have hpl : alookup (setCache cfg t0 st f configStr svc term pr result pt).payload key =
      some result := by
    rw [hst1]
    exact alookup_dictSet_self _ _ _
  have hexp : isExpired cfg t1 (setCacheMeta t0 f configStr svc term pr result pt) = false := by
    simp only [isExpired, setCacheMeta]
    rw [decide_eq_false_iff_not]
    exact not_lt.mpr hage
  have h1 : hasCache cfg t1 (setCache cfg t0 st f configStr svc term pr result pt)
      f configStr svc term pr = true := by
    simp only [hasCache, ← hkeydef, hmd, hpl]
    rw [hexp]
    simp [setCacheMeta]
  refine ⟨h1, ?_, ?_, hpl⟩
  · simp only [getCache, h1, if_true, ← hkeydef, hpl]
  · have hmd' : alookup (setCache cfg t0 st f configStr svc term pr result pt).metadata key' =
        none := by
      rw [hst1, alookup_dictSet_ne _ _ _ _ hkk]
      exact hnew
    simp only [hasCache, ← hkeydef', hmd']

/-- The example file of claim C2 and its touched (mtime + 100 s) version. -/
def c2File : SrcFile :=
  ⟨"doc.pdf", 10, 100, "head"⟩

def c2FileTouched : SrcFile :=
  ⟨"doc.pdf", 10, 200, "head"⟩

theorem C2_set_cache_roundtrip_and_invalidation_witness :
    hasCache {} 0 (setCache {} 0 ⟨[], []⟩ c2File "cfg" "dashscope" "term" (1, 3)
      "result text" (5 / 2)) c2File "cfg" "dashscope" "term" (1, 3) = true ∧
    (getCache {} 0 (setCache {} 0 ⟨[], []⟩ c2File "cfg" "dashscope" "term" (1, 3)
      "result text" (5 / 2)) c2File "cfg" "dashscope" "term" (1, 3)).1 = some "result text" ∧
    hasCache {} 0 (setCache {} 0 ⟨[], []⟩ c2File "cfg" "dashscope" "term" (1, 3)
      "result text" (5 / 2)) c2FileTouched "cfg" "dashscope" "term" (1, 3) = false ∧
    alookup (setCache {} 0 ⟨[], []⟩ c2File "cfg" "dashscope" "term" (1, 3)
      "result text" (5 / 2)).payload
      (generateCacheKey {} c2File "cfg" "dashscope" "term" (1, 3)) = some "result text" :=
  C2_set_cache_roundtrip_and_invalidation {} ⟨[], []⟩ c2File c2FileTouched
    "cfg" "dashscope" "term" "result text" (1, 3) 0 0 (5 / 2)
    (by decide)
    (by norm_num)
    (Or.inr (by norm_num [c2File, c2FileTouched]))
    rfl

/-! ## Claim C3 -/

/-- The resumed checkpoint of claim C3: pages 1-5, pages 1, 2, 4 and 5
already completed with their texts recorded, page 3 still failed. -/
def c3Checkpoint : PState :=
  { completedPages := [1, 2, 4, 5]
    failedPages := [3]
    currentPage := some 3
    partialResults := [(PKey.intK 1, "P1"), (PKey.intK 2, "P2"),
                       (PKey.intK 4, "P4"), (PKey.intK 5, "P5")] }

/-- On the retry run, page 3 succeeds (no other page is attempted: the
loop skips pages listed in `completed_pages`). -/
def c3PageResult : ℤ → Option String :=
  fun p => if p = 3 then some "P3" else none

/-- Claim C3 (failing evaluation): resuming from the checkpoint as it comes
back from disk (`jsonRoundTrip` stringifies the `partial_results` keys),
page 3 succeeds and all five pages count as completed, but the combined
result contains ONLY page 3's text — the four resumed texts sit under
string keys and the join loop looks pages up under int keys — and this
wrong result is cached and the checkpoint deleted. On the same checkpoint
without the JSON round trip the code produces all five pages in order,
which is what the claim (and the dataclass's `Dict[int, str]` annotation)
expects. -/
theorem C3_resume_drops_completed_pages :
    (processWithRecovery 1 5 (jsonRoundTrip c3Checkpoint) c3PageResult).result =
      Except.ok "P3" ∧
    (processWithRecovery 1 5 (jsonRoundTrip c3Checkpoint) c3PageResult).cachedResult =
      some "P3" ∧
    (processWithRecovery 1 5 (jsonRoundTrip c3Checkpoint) c3PageResult).checkpointRemoved =
      true ∧
    ("P3" : String) ≠ "P1\n\nP2\n\nP3\n\nP4\n\nP5" ∧
    (processWithRecovery 1 5 c3Checkpoint c3PageResult).result =
      Except.ok "P1\n\nP2\n\nP3\n\nP4\n\nP5" := by
  refine ⟨rfl, rfl, rfl, ?_, rfl⟩
  decide

/-! ## Claim C4 -/

/-- An open breaker with the default thresholds, five recorded consecutive
failures, the last at time 0. -/
def c4OpenBreaker : Breaker :=
  { failureCount := 5, lastFailureTime := some 0, state := "open" }

/-- Claim C4 (failing evaluation): the open-state gate compares the
day-wrapped `timedelta.seconds` with `recovery_time`. Within the first
day this behaves as the claim says — a call 10 s after the last failure
is rejected without invoking the wrapped function, a call 301 s after it
is let through in half-open state and a success resets the breaker to
closed with failure count 0 — but one day and 10 seconds after the last
failure (86410 s > 300 s elapsed) the seconds component is 10 again and
the call is still rejected, against the claim. -/
theorem C4_recovery_gate_wraps_after_a_day :
    breakerCall c4OpenBreaker 10 (Except.ok "v") =
      (c4OpenBreaker, Except.error "Circuit breaker is open", false) ∧
    breakerCall c4OpenBreaker 301 (Except.ok "v") =
      ({ c4OpenBreaker with state := "closed", failureCount := 0 }, Except.ok "v", true) ∧
    breakerCall c4OpenBreaker 86410 (Except.ok "v") =
      (c4OpenBreaker, Except.error "Circuit breaker is open", false) ∧
    ((86410 : ℚ) - 0 > 300) := by
  have h10 : tdSeconds (10 : ℚ) = 10 := by
    simp only [tdSeconds]
    norm_num
  have h301 : tdSeconds (301 : ℚ) = 301 := by
    simp only [tdSeconds]
    norm_num
  have h86410 : tdSeconds (86410 : ℚ) = 10 := by
    simp only [tdSeconds]
    norm_num
  refine ⟨?_, ?_, ?_, by norm_num⟩
  · simp [breakerCall, c4OpenBreaker, h10]
  · simp [breakerCall, breakerRun, c4OpenBreaker, h301]
  · simp [breakerCall, c4OpenBreaker, h86410]

/-! ## Claim C5 -/

/-- The default retry configuration with jitter disabled. -/
def rcfgNoJitter : RetryConfig :=
  { jitter := false }

/-- Claim C5: before jitter, `_calculate_delay` computes
`base_delay * exponential_base ^ attempt`, doubled for `api_rate_limit`,
clamped to `max_delay`; with the defaults (base 1.0, base 2.0, max 300.0)
and jitter disabled the delays for attempts 0, 1, 2, 3, ... are
1, 2, 4, 8, ... and never exceed 300 for any attempt number; with jitter
enabled the clamped value is multiplied by the uniform factor drawn from
[0.5, 1.5]. -/
theorem C5_backoff_delay_schedule :
    (∀ (cfg : RetryConfig) (n : ℕ) (et : RetryReason) (jf : ℚ), cfg.jitter = false →
      calculateDelay cfg n et jf =
        min (cfg.baseDelay * cfg.exponentialBase ^ n *
          (if et = RetryReason.apiRateLimit then 2 else 1)) cfg.maxDelay) ∧
    (∀ (n : ℕ) (et : RetryReason), et ≠ RetryReason.apiRateLimit →
      calculateDelay rcfgNoJitter n et 1 = min ((2 : ℚ) ^ n) 300) ∧
    (∀ (n : ℕ) (et : RetryReason), calculateDelay rcfgNoJitter n et 1 ≤ 300) ∧
    calculateDelay rcfgNoJitter 0 RetryReason.networkError 1 = 1 ∧
    calculateDelay rcfgNoJitter 1 RetryReason.networkError 1 = 2 ∧
    calculateDelay rcfgNoJitter 2 RetryReason.networkError 1 = 4 ∧
    calculateDelay rcfgNoJitter 3 RetryReason.networkError 1 = 8 ∧
    (∀ (n : ℕ) (et : RetryReason) (jf : ℚ), 1 / 2 ≤ jf → jf ≤ 3 / 2 →
      calculateDelay ({} : RetryConfig) n et jf =
        calculateDelay rcfgNoJitter n et 1 * jf) := by
  refine ⟨?_, ?_, ?_, ?_, ?_, ?_, ?_, ?_⟩
  · intro cfg n et jf hj
    by_cases h : et = RetryReason.apiRateLimit <;>
      simp [calculateDelay, hj, h, mul_one]
  · intro n et h
    simp [calculateDelay, rcfgNoJitter, h]
  · intro n et
    by_cases h : et = RetryReason.apiRateLimit <;>
      simp [calculateDelay, rcfgNoJitter, h, min_le_right]
  · simp [calculateDelay, rcfgNoJitter]
  · simp [calculateDelay, rcfgNoJitter]
    norm_num
  · simp [calculateDelay, rcfgNoJitter]
    norm_num
  · simp [calculateDelay, rcfgNoJitter]
    norm_num
  · intro n et jf _h1 _h2
    by_cases h : et = RetryReason.apiRateLimit <;>
      simp [calculateDelay, rcfgNoJitter, h]

/-! ## Claim C9 -/

/-- Claim C9: the text-correction stage never blocks the pipeline. With
either credential unset it returns the input unchanged with zero usage and
zero network calls; when the primary call raises, the stage still returns
the original text with all-zero usage counters (the empty usage dict read
through `usage.get(key, 0)`); and the official-SDK fallback block likewise
degrades to the original text with explicit zero usage when its call
raises. Every branch returns a value — the stage never re-raises. -/
theorem C9_correction_stage_never_raises :
    (∀ (baseUrl text : String) (primary : Except String (String × TokenUsage)),
      correctTextWithGeminiStreaming "" baseUrl primary text = ((text, zeroUsage), 0)) ∧
    (∀ (apiKey text : String) (primary : Except String (String × TokenUsage)),
      correctTextWithGeminiStreaming apiKey "" primary text = ((text, zeroUsage), 0)) ∧
    (∀ (apiKey baseUrl text errMsg : String), apiKey ≠ "" → baseUrl ≠ "" →
      correctTextWithGeminiStreaming apiKey baseUrl (.error errMsg) text =
        ((text, zeroUsage), 1)) ∧
    (∀ (text errMsg : String),
      correctTextWithGemini (.error errMsg) text = (text, zeroUsage)) ∧
    (∀ (text errMsg : String),
      officialGeminiFallback (.error errMsg) text = (text, zeroUsage)) := by
  refine ⟨?_, ?_, ?_, ?_, ?_⟩
  · intro baseUrl text primary
    simp [correctTextWithGeminiStreaming]
  · intro apiKey text primary
    simp [correctTextWithGeminiStreaming]
  · intro apiKey baseUrl text errMsg h1 h2
    simp [correctTextWithGeminiStreaming, correctTextWithGemini, h1, h2]
  · intro text errMsg
    rfl
  · intro text errMsg
    rfl

/-! ## Claim C8 -/

/-- Claim C8 (amended form): with mode `none` — which disables all five
feature flags — and the remaining output settings at their defaults
(no binarization, no grayscale conversion, `output_dpi` 300), an RGB or
grayscale input comes back pixel-for-pixel identical with an empty
`operations_applied` list, whatever the OpenCV stages would do. (RGBA and
palette inputs do NOT come back identical: `_pil_to_cv2` drops their
alpha/palette, see the counterexample.) -/
theorem C8_mode_none_rgb_l_identity (ops : CVOps) (cfg : PreprocessingConfig)
    (image : PILImage)
    (hmode : cfg.mode = "none")
    (hbin : cfg.binarization = false)
    (hgray : cfg.grayscale = false)
    (hdpi : cfg.outputDpi = 300)
    (himg : (∃ p, image = PILImage.rgb p) ∨ (∃ p, image = PILImage.l p)) :
    preprocessImage ops cfg image = (image, []) := by
  have hcfg : applyModePreset cfg = { cfg with
      enableNoiseReduction := false
      enableSharpening := false
      enableContrastEnhancement := false
      enableDeskewing := false
      enablePerspectiveCorrection := false } := by
    simp [applyModePreset, hmode]
  have hswap : ((fun p : ℕ × ℕ × ℕ => (p.2.2, p.2.1, p.1)) ∘
      fun p : ℕ × ℕ × ℕ => (p.2.2, p.2.1, p.1)) = id :=
    funext fun q => rfl
  rcases himg with ⟨p, rfl⟩ | ⟨p, rfl⟩ <;>
    simp [preprocessImage, hcfg, hbin, hgray, hdpi, pilToCv2, cv2ToPil,
      isColorImage, List.map_map, hswap]

/-- Trivial OpenCV stage implementations used to instantiate the oracle
in the concrete checks. -/
def idCVOps : CVOps :=
  { correctGeometry := fun _ c => (c, [])
    reduceNoise := fun _ c => c
    enhanceContrast := fun _ c => c
    sharpenImage := fun _ c => c
    binarizeImage := fun c => c
    bgrToGray := fun c => c
    adjustDpi := fun _ i => i }

/-- The preprocessing configuration selecting mode `none`. -/
def noneModeCfg : PreprocessingConfig :=
  { mode := "none" }

theorem C8_mode_none_rgb_l_identity_witness :
    preprocessImage idCVOps noneModeCfg (PILImage.rgb [(1, 2, 3)]) =
      (PILImage.rgb [(1, 2, 3)], []) :=
  C8_mode_none_rgb_l_identity idCVOps noneModeCfg (PILImage.rgb [(1, 2, 3)])
    rfl rfl rfl rfl (Or.inl ⟨[(1, 2, 3)], rfl⟩)

/-- Claim C8 counterexample: an RGBA input under mode `none` (default
output settings) comes back as an RGB image with the alpha channel
dropped — not pixel-for-pixel identical to the input, though
`operations_applied` is empty. -/
theorem C8_rgba_counterexample :
    preprocessImage idCVOps noneModeCfg (PILImage.rgba [(1, 2, 3, 4)]) =
      (PILImage.rgb [(1, 2, 3)], []) ∧
    PILImage.rgb [(1, 2, 3)] ≠ PILImage.rgba [(1, 2, 3, 4)] := by
  exact ⟨rfl, by decide⟩

/-! ## Claim C10 -/

/-- Once the splitter loop reaches `start_page = 2` with window 2, overlap
1 and `page_count = 2`, every iteration recomputes `end_page = 2` and
`start_page = end_page + 1 - overlap = 2` again: the loop never exits,
whatever the fuel. -/
theorem splitLoop_stuck_at_two (avg : ℚ) :
    ∀ (fuel : ℕ) (idx : ℕ), splitLoop 2 1 2 avg fuel 2 idx = none := by
  intro fuel
  induction fuel with
  | zero =>
    intro idx
    simp [splitLoop]
  | succ fuel ih =>
    intro idx
    have h1 : min (2 + 2 - 1 : ℤ) 2 = 2 := by decide
    simp only [splitLoop, if_pos (by decide : (2 : ℤ) ≤ 2), h1]
    norm_num [ih]

/-- Claim C10 (failing evaluation): with `overlap_pages = 1` and
`max_pages_per_chunk = 2` — a configuration with `overlap < window` — the
`_split_by_pages` loop on a 2-page document never terminates: for every
number of iterations it is still running (the same holds for
`_split_by_size` and `_split_by_memory`, which share the loop verbatim).
Progress stops because the clamped last window keeps recomputing
`start_page = page_count + 1 - overlap ≤ page_count`. -/
theorem C10_overlap_loop_never_terminates :
    ∀ fuel : ℕ,
      splitByPages { maxPagesPerChunk := 2, overlapPages := 1 } 2 1 fuel = none := by
  intro fuel
  cases fuel with
  | zero => simp [splitByPages, splitLoop]
  | succ fuel =>
    have h1 : min (1 + 2 - 1 : ℤ) 2 = 2 := by decide
    simp only [splitByPages, splitLoop, if_pos (by decide : (1 : ℤ) ≤ 2), h1]
    norm_num [splitLoop_stuck_at_two]

/-! ## Claim C7 -/

/-- The example chunks of claim C7, deliberately out of id order:
`chunk_002` completed with text "B", `chunk_001` completed with text "A",
`chunk_003` failed. -/
def c7Chunks : List ChunkInfo :=
  [ { chunkId := "chunk_002", startPage := 3, endPage := 4, pageCount := 2,
      estimatedSizeMb := 0, status := "completed", ocrResult := some "B" },
    { chunkId := "chunk_001", startPage := 1, endPage := 2, pageCount := 2,
      estimatedSizeMb := 0, status := "completed", ocrResult := some "A" },
    { chunkId := "chunk_003", startPage := 5, endPage := 6, pageCount := 2,
      estimatedSizeMb := 0, status := "failed", ocrResult := none } ]

/-- What `merge_ocr_results(c7Chunks, preserve_structure=True)` produces. -/
def c7Merged : String :=
  "\n\n---\n\n# 文档段落 1\n\nA\n\n---\n\n# 文档段落 2\n\nB\n\n---\n\n## 处理摘要\n\n- 成功处理段落: 2\n- 失败段落: 1\n- 失败的段落ID: chunk_003\n"

/-- Claim C7: `merge_ocr_results` with `preserve_structure=true` raises the
no-successful-results error whenever no chunk of a non-empty list has a
completed status with non-empty text; on the example, the output is
ordered by chunk id (text "A" of `chunk_001` precedes text "B" of
`chunk_002`, though `chunk_002` was inserted first) and ends with a
processing summary naming the failed `chunk_003`. -/
theorem C7_merge_order_and_failure_summary :
    (∀ chunks : List ChunkInfo, chunks ≠ [] →
      (∀ c ∈ chunks, chunkSuccessText c = none) →
      mergeOcrResults chunks true = .error "没有成功的OCR结果可以合并") ∧
    mergeOcrResults c7Chunks true = .ok c7Merged ∧
    List.indexOf 'A' c7Merged.data < List.indexOf 'B' c7Merged.data ∧
    occursIn "chunk_003".data c7Merged.data = true := by
  refine ⟨?_, by decide, by decide, by decide⟩
  intro chunks hne hall
  have hempty : chunks.isEmpty = false := by
    rcases chunks with _ | ⟨c, cs⟩
    · exact absurd rfl hne
    · rfl
  have hnil : (List.insertionSort
      (fun a b : ChunkInfo => strLe a.chunkId b.chunkId = true) chunks).filterMap
        chunkSuccessText = [] :=
    List.filterMap_eq_nil_iff.mpr (fun c hc =>
      hall c ((List.perm_insertionSort _ chunks).subset hc))
  simp [mergeOcrResults, hempty, hnil]

/-! ## Claim C6 -/

theorem pageSeqZ_split (a b c : ℤ) (h1 : a ≤ b + 1) (h2 : b ≤ c) :
    pageSeqZ a b ++ pageSeqZ (b + 1) c = pageSeqZ a c := by
  unfold pageSeqZ
  have hshift : c + 1 - (b + 1) = c - b := by ring
  rw [hshift]
  have hm : (b + 1 - a).toNat + (c - b).toNat = (c + 1 - a).toNat := by omega
  rw [← hm, List.range_add, List.map_append, List.map_map]
  congr 1
  apply List.map_congr_left
  intro i _hi
  have hcast : ((b + 1 - a).toNat : ℤ) = b + 1 - a := Int.toNat_of_nonneg (by omega)
  simp only [Function.comp_apply]
  push_cast [hcast]
  ring

theorem splitLoop_zero_overlap_spec (window pageCount : ℤ) (avg : ℚ)
    (hw : 1 ≤ window) :
    ∀ (fuel : ℕ) (startPage : ℤ) (idx : ℕ),
      (pageCount + 1 - startPage).toNat ≤ fuel →
      ∃ l, splitLoop window 0 pageCount avg fuel startPage idx = some l ∧
        (l.map (fun c => pageSeqZ c.startPage c.endPage)).join =
          pageSeqZ startPage pageCount ∧
        (∀ c ∈ l, c.startPage ≤ c.endPage ∧ c.endPage ≤ pageCount ∧
          c.pageCount = c.endPage - c.startPage + 1 ∧ c.pageCount ≤ window ∧
          c.estimatedSizeMb = (c.pageCount : ℚ) * avg) ∧
        (∀ (i : ℕ) (h : i < l.length), (l.get ⟨i, h⟩).chunkId = chunkIdStr (idx + i)) := by
  intro fuel
  induction fuel with
  | zero =>
    intro startPage idx hfuel
    have hgt : ¬ (startPage ≤ pageCount) := by omega
    refine ⟨[], by simp [splitLoop, hgt], ?_, ?_, ?_⟩
    · have h0 : (pageCount + 1 - startPage).toNat = 0 := by omega
      simp [pageSeqZ, h0]
    · intro c hc
      simp at hc
    · intro i h
      simp at h
  | succ fuel ih =>
    intro startPage idx hfuel
    by_cases hsp : startPage ≤ pageCount
    · have hse : startPage ≤ min (startPage + window - 1) pageCount :=
        le_min (by omega) hsp
      have hep : min (startPage + window - 1) pageCount ≤ pageCount := min_le_right _ _
      have hew : min (startPage + window - 1) pageCount ≤ startPage + window - 1 :=
        min_le_left _ _
      have hfuel' :
          (pageCount + 1 - (min (startPage + window - 1) pageCount + 1 - 0)).toNat ≤ fuel := by
        omega
      obtain ⟨l, hl, hjoin, hmem, hids⟩ :=
        ih (min (startPage + window - 1) pageCount + 1 - 0) (idx + 1) hfuel'
      refine ⟨{ chunkId := chunkIdStr idx
                startPage := startPage
                endPage := min (startPage + window - 1) pageCount
                pageCount := min (startPage + window - 1) pageCount - startPage + 1
                estimatedSizeMb :=
                  ((min (startPage + window - 1) pageCount - startPage + 1 : ℤ) : ℚ) * avg } :: l,
              ?_, ?_, ?_, ?_⟩
      · simp only [splitLoop, if_pos hsp, hl, Option.map_some']
      · rw [sub_zero] at hjoin
        simp only [List.map_cons, List.join_cons, hjoin]
        exact pageSeqZ_split startPage (min (startPage + window - 1) pageCount) pageCount
          (by omega) hep
      · intro c hc
        rcases List.mem_cons.mp hc with rfl | hc
        · exact ⟨hse, hep, rfl,
            (show min (startPage + window - 1) pageCount - startPage + 1 ≤ window by omega),
            rfl⟩
        · exact hmem c hc
      · intro i h
        cases i with
        | zero => simp
        | succ i =>
          have hi : i < l.length := by
            simpa using h
          have := hids i hi
          simpa [Nat.add_assoc, Nat.add_comm 1 i] using this
    · have h0 : (pageCount + 1 - startPage).toNat = 0 := by omega
      refine ⟨[], by simp [splitLoop, hsp], ?_, ?_, ?_⟩
      · simp [pageSeqZ, h0]
      · intro c hc
        simp at hc
      · intro i h
        simp at h

/-- Claim C6: with `overlap_pages = 0` and a positive window,
`_split_by_pages` terminates with a chunk list whose page ranges,
concatenated in order, are exactly pages `1..page_count` (a contiguous
partition with no gaps or overlaps), every chunk holds
`end - start + 1 ≤ max_pages_per_chunk` pages with estimated size
`page_count × avg_page_size`, and the ids are the sequential zero-padded
`chunk_001, chunk_002, ...`; in particular a 237-page document with
`max_pages_per_chunk = 50` yields exactly the five chunks
1-50, 51-100, 101-150, 151-200, 201-237. -/
theorem C6_split_by_pages_partition :
    (∀ (cfg : SplitConfig) (pageCount : ℤ) (avg : ℚ) (fuel : ℕ),
      cfg.overlapPages = 0 → 1 ≤ cfg.maxPagesPerChunk → pageCount.toNat ≤ fuel →
      ∃ l, splitByPages cfg pageCount avg fuel = some l ∧
        (l.map (fun c => pageSeqZ c.startPage c.endPage)).join = pageSeqZ 1 pageCount ∧
        (∀ c ∈ l, c.startPage ≤ c.endPage ∧ c.endPage ≤ pageCount ∧
          c.pageCount = c.endPage - c.startPage + 1 ∧
          c.pageCount ≤ cfg.maxPagesPerChunk ∧
          c.estimatedSizeMb = (c.pageCount : ℚ) * avg) ∧
        (∀ (i : ℕ) (h : i < l.length), (l.get ⟨i, h⟩).chunkId = chunkIdStr (i + 1))) ∧
    (splitByPages {} 237 1 237).map
        (List.map (fun c => (c.chunkId, c.startPage, c.endPage, c.pageCount))) =
      some [("chunk_001", 1, 50, 50), ("chunk_002", 51, 100, 50),
            ("chunk_003", 101, 150, 50), ("chunk_004", 151, 200, 50),
            ("chunk_005", 201, 237, 37)] := by
  constructor
  · intro cfg pageCount avg fuel hov hw hfuel
    have hfuel1 : (pageCount + 1 - 1).toNat ≤ fuel := by omega
    obtain ⟨l, hl, hjoin, hmem, hids⟩ :=
      splitLoop_zero_overlap_spec cfg.maxPagesPerChunk pageCount avg hw fuel 1 1 hfuel1
    refine ⟨l, ?_, hjoin, hmem, ?_⟩
    · rw [splitByPages, hov]
      exact hl
    · intro i h
      simpa [Nat.add_comm 1 i] using hids i h
  · decide

/-! ## Claim C1 -/

theorem filter_mem_perm {α : Type} (l t d : List α) (p : α → Bool)
    (hl : l.Nodup) (hperm : (t ++ d).Perm l) (hp : ∀ a, p a = true ↔ a ∈ t) :
    (l.filter p).Perm t := by
  have htd : (t ++ d).Nodup := (hperm.symm).nodup hl
  have hdisj : t.Disjoint d := (List.nodup_append.mp htd).2.2
  have h1 : (l.filter p).Perm ((t ++ d).filter p) :=
    (hperm.symm).filter p
  have h2 : (t ++ d).filter p = t := by
    rw [List.filter_append]
    have ht : t.filter p = t :=
      List.filter_eq_self.mpr (fun a ha => (hp a).mpr ha)
    have hd : d.filter p = [] :=
      List.filter_eq_nil_iff.mpr (fun a ha hc => hdisj ((hp a).mp hc) ha)
    rw [ht, hd, List.append_nil]
  exact h2 ▸ h1

theorem subset_filter_length {α : Type} (t l : List α) (p : α → Bool)
    (ht : t.Nodup) (hsub : ∀ e ∈ t, e ∈ l ∧ p e = true) :
    t.length ≤ (l.filter p).length :=
  (ht.subperm (fun e he => List.mem_filter.mpr (hsub e he))).length_le

/-- The two-sided characterisation of `cleanup` on a state whose entries are
all healthy (phase one removes nothing) but which is over `max_entries`:
exactly the `min(max_entries, preserve_recent)` most-recently-accessed
entries survive. -/
theorem cleanup_overflow_spec (cfg : CacheConfig) (now : ℚ) (st : CacheState)
    (hclean : ∀ kv ∈ st.metadata, removalReason cfg now st.payload kv = none)
    (hover : cfg.maxEntries < st.metadata.length)
    (hkeys : (st.metadata.map Prod.fst).Nodup)
    (htimes : (st.metadata.map (fun kv => kv.2.lastAccessed)).Nodup) :
    ((cleanup cfg now st).1.metadata.length = min cfg.maxEntries cfg.preserveRecent) ∧
    (∀ kv ∈ st.metadata,
      (st.metadata.filter
        (fun kv2 => decide (kv.2.lastAccessed < kv2.2.lastAccessed))).length <
          min cfg.maxEntries cfg.preserveRecent →
      kv ∈ (cleanup cfg now st).1.metadata) := by
  classical
  set r : (CKey × CMeta) → (CKey × CMeta) → Prop :=
    fun a b => b.2.lastAccessed ≤ a.2.lastAccessed with hr
  haveI : IsTotal (CKey × CMeta) r := ⟨fun a b => le_total b.2.lastAccessed a.2.lastAccessed⟩
  haveI : IsTrans (CKey × CMeta) r := ⟨fun _ _ _ hab hbc => le_trans hbc hab⟩
  set keep := min cfg.maxEntries cfg.preserveRecent with hkeep
  have hf1 : st.metadata.filter
      (fun kv => (removalReason cfg now st.payload kv).isSome) = [] :=
    List.filter_eq_nil_iff.mpr (fun kv hkv => by simp [hclean kv hkv])
  have hf2 : st.metadata.filter
      (fun kv => !(removalReason cfg now st.payload kv).isSome) = st.metadata :=
    List.filter_eq_self.mpr (fun kv hkv => by simp [hclean kv hkv])
  set sorted := List.insertionSort r st.metadata with hsorteddef
  have hres : (cleanup cfg now st).1.metadata =
      st.metadata.filter
        (fun kv => decide (kv.1 ∉ (sorted.drop keep).map (·.1))) := by
    simp only [cleanup, hf1, hf2, List.map_nil, List.length_nil, Nat.sub_zero,
      List.nil_append, if_pos hover, ← hsorteddef, ← hkeep]
  have hperm : sorted.Perm st.metadata := List.perm_insertionSort r st.metadata
  have hsorted : List.Pairwise r sorted := List.sorted_insertionSort r st.metadata
  have hnodup : st.metadata.Nodup := List.Nodup.of_map Prod.fst hkeys
  have hsortednodup : sorted.Nodup := (hperm.symm).nodup hnodup
  have htd : List.take keep sorted ++ List.drop keep sorted = sorted :=
    List.take_append_drop keep sorted
  have htdperm : (List.take keep sorted ++ List.drop keep sorted).Perm st.metadata := by
    rw [htd]
    exact hperm
  have htdnodup : (List.take keep sorted ++ List.drop keep sorted).Nodup := by
    rw [htd]
    exact hsortednodup
  have hdisj : (List.take keep sorted).Disjoint (List.drop keep sorted) :=
    (List.nodup_append.mp htdnodup).2.2
  -- a member's key is in the doomed key list exactly when the member itself
  -- was dropped by the sort
  have hkeydrop : ∀ kv ∈ st.metadata,
      (kv.1 ∈ (sorted.drop keep).map (·.1) ↔ kv ∈ sorted.drop keep) := by
    intro kv hkv
    constructor
    · intro hmem
      obtain ⟨kv', hkv', hk⟩ := List.mem_map.mp hmem
      have hkv'm : kv' ∈ st.metadata :=
        hperm.subset (List.mem_of_mem_drop hkv')
      have : kv' = kv := List.inj_on_of_nodup_map hkeys hkv'm hkv hk
      rw [← this]
      exact hkv'
    · intro hmem
      exact List.mem_map.mpr ⟨kv, hmem, rfl⟩
  have hmemtake : ∀ kv ∈ st.metadata,
      (kv ∉ sorted.drop keep ↔ kv ∈ sorted.take keep) := by
    intro kv hkv
    have hkvs : kv ∈ List.take keep sorted ++ List.drop keep sorted := by
      rw [htd]
      exact hperm.mem_iff.mpr hkv
    constructor
    · intro hnd
      rcases List.mem_append.mp hkvs with h | h
      · exact h
      · exact absurd h hnd
    · intro ht hd
      exact hdisj ht hd
  have hfilter2 : st.metadata.filter
      (fun kv => decide (kv.1 ∉ (sorted.drop keep).map (·.1))) =
      st.metadata.filter (fun kv => decide (kv ∈ sorted.take keep)) := by
    apply List.filter_congr
    intro kv hkv
    exact decide_eq_decide.mpr ((not_congr (hkeydrop kv hkv)).trans (hmemtake kv hkv))
  have hpermtake : (st.metadata.filter
      (fun kv => decide (kv ∈ sorted.take keep))).Perm (sorted.take keep) :=
    filter_mem_perm st.metadata (sorted.take keep) (sorted.drop keep)
      (fun kv => decide (kv ∈ sorted.take keep)) hnodup htdperm
      (fun a => by simp)
  have hkeeplen : (sorted.take keep).length = keep := by
    rw [List.length_take]
    have hlen : sorted.length = st.metadata.length := hperm.length_eq
    have : keep ≤ sorted.length := by
      rw [hlen]
      exact le_trans (min_le_left _ _) (le_of_lt hover)
    omega
  constructor
  · rw [hres, hfilter2, hpermtake.length_eq, hkeeplen]
  · intro kv hkv hrank
    rw [hres, hfilter2]
    refine List.mem_filter.mpr ⟨hkv, decide_eq_true ?_⟩
    by_contra hnt
    have hd : kv ∈ sorted.drop keep := by
      rcases List.mem_append.mp (by rw [htd]; exact hperm.mem_iff.mpr hkv :
        kv ∈ List.take keep sorted ++ List.drop keep sorted) with h | h
      · exact absurd h hnt
      · exact h
    have hcross : ∀ e ∈ sorted.take keep, r e kv := by
      intro e he
      have := (List.pairwise_append.mp (by rw [htd]; exact hsorted)).2.2
      exact this e he kv hd
    have hstrict : ∀ e ∈ sorted.take keep, kv.2.lastAccessed < e.2.lastAccessed := by
      intro e he
      have hle : kv.2.lastAccessed ≤ e.2.lastAccessed := hcross e he
      have hne : e ≠ kv := fun hc => hdisj he (hc ▸ hd)
      have hem : e ∈ st.metadata := hperm.subset (List.mem_of_mem_take he)
      rcases lt_or_eq_of_le hle with h | h
      · exact h
      · exact absurd (List.inj_on_of_nodup_map htimes hem hkv h.symm) hne
    have hsubs : (sorted.take keep).length ≤
        (st.metadata.filter
          (fun kv2 => decide (kv.2.lastAccessed < kv2.2.lastAccessed))).length := by
      apply subset_filter_length
      · exact (List.nodup_append.mp htdnodup).1
      · intro e he
        exact ⟨hperm.subset (List.mem_of_mem_take he), decide_eq_true (hstrict e he)⟩
    rw [hkeeplen] at hsubs
    omega

/-- Claim C1 (amended): on a cache state where the first cleanup phase
removes nothing (no entry is expired, payload-missing, corrupted or failed
with retries exhausted) and the entry count exceeds `max_entries`,
`cleanup()` evicts least-recently-accessed entries down to
`min(max_entries, preserve_recent)` — with the defaults, 100, NOT
`max_entries = 1000` — remaining entries; no entry with fewer than
`min(max_entries, preserve_recent)` more-recently-accessed entries (in
particular none of the `preserve_recent` most-recently-accessed ones) is
ever evicted. -/
theorem C1_cleanup_secondary_eviction (cfg : CacheConfig) (now : ℚ) (st : CacheState)
    (hclean : ∀ kv ∈ st.metadata, removalReason cfg now st.payload kv = none)
    (hover : cfg.maxEntries < st.metadata.length)
    (hkeys : (st.metadata.map Prod.fst).Nodup)
    (htimes : (st.metadata.map (fun kv => kv.2.lastAccessed)).Nodup) :
    ((cleanup cfg now st).1.metadata.length = min cfg.maxEntries cfg.preserveRecent) ∧
    (∀ kv ∈ st.metadata,
      (st.metadata.filter
        (fun kv2 => decide (kv.2.lastAccessed < kv2.2.lastAccessed))).length <
          min cfg.maxEntries cfg.preserveRecent →
      kv ∈ (cleanup cfg now st).1.metadata) :=
  cleanup_overflow_spec cfg now st hclean hover hkeys htimes

/-- The i-th synthetic cache key (distinct via `fileSize`). -/
def c1Key (i : ℕ) : CKey :=
  { fileName := "f", fileSize := i, fileMtime := 0, fileHead := "",
    configStr := "", ocrService := "s", terminology := "",
    pageStart := 1, pageEnd := 1, version := "v1.0" }

/-- The i-th synthetic metadata entry: `completed`, fresh, with distinct
`last_accessed = i` seconds. -/
def c1Meta (i : ℕ) : CMeta :=
  { filePath := "f", fileHash := ⟨"f", i, 0, ""⟩, fileSize := i, fileMtime := 0,
    createdTime := 0, lastAccessed := (i : ℚ), accessCount := 0,
    processingConfig := "", ocrService := "s", terminologyHash := "",
    pageStart := 1, pageEnd := 1, status := CStatus.completed }

/-- A cache state of `n` healthy completed entries with distinct
`last_accessed` times, every payload present. -/
def c1State (n : ℕ) : CacheState :=
  ⟨(List.range n).map (fun i => (c1Key i, c1Meta i)),
   (List.range n).map (fun i => (c1Key i, "r"))⟩

theorem c1Key_inj : Function.Injective c1Key := by
  intro a b h
  simpa using congrArg CKey.fileSize h

theorem c1State_clean (n : ℕ) (cfg : CacheConfig) :
    ∀ kv ∈ (c1State n).metadata, removalReason cfg 0 (c1State n).payload kv = none := by
  intro kv hkv
  obtain ⟨i, hi, rfl⟩ := List.mem_map.mp hkv
  have hexp : isExpired cfg 0 (c1Meta i) = false := by
    simp only [isExpired, c1Meta]
    rw [decide_eq_false_iff_not]
    have hpos : (0 : ℚ) ≤ (cfg.maxCacheAgeDays : ℚ) * 86400 := by positivity
    intro hc
    rw [sub_zero] at hc
    linarith
  have hfold : (List.range n).map (fun i => (c1Key i, "r")) =
      ((List.range n).map c1Key).map (fun k => (k, "r")) := by
    rw [List.map_map]
    rfl
  have hpay : alookup (c1State n).payload (c1Key i) = some "r" := by
    show alookup ((List.range n).map (fun i => (c1Key i, "r"))) (c1Key i) = some "r"
    rw [hfold]
    exact alookup_of_mem_const _ _ _ (List.mem_map.mpr ⟨i, hi, rfl⟩)
  have hstatus : (c1Meta i).status = CStatus.completed := rfl
  simp [removalReason, hexp, hpay, hstatus]

theorem c1State_keys_nodup (n : ℕ) : ((c1State n).metadata.map Prod.fst).Nodup := by
  show (((List.range n).map (fun i => (c1Key i, c1Meta i))).map Prod.fst).Nodup
  rw [List.map_map]
  exact List.Nodup.map (fun a b h => c1Key_inj h) (List.nodup_range n)

theorem c1State_times_nodup (n : ℕ) :
    ((c1State n).metadata.map (fun kv => kv.2.lastAccessed)).Nodup := by
  show (((List.range n).map (fun i => (c1Key i, c1Meta i))).map
    (fun kv => kv.2.lastAccessed)).Nodup
  rw [List.map_map]
  exact List.Nodup.map (fun a b h => Nat.cast_injective h) (List.nodup_range n)

theorem c1State_length (n : ℕ) : (c1State n).metadata.length = n := by
  simp [c1State]

theorem C1_cleanup_secondary_eviction_witness :
    (cleanup { maxEntries := 2, preserveRecent := 1 } 0 (c1State 3)).1.metadata.length =
      min 2 1 :=
  (C1_cleanup_secondary_eviction { maxEntries := 2, preserveRecent := 1 } 0 (c1State 3)
    (c1State_clean 3 _)
    (by rw [c1State_length]; norm_num)
    (c1State_keys_nodup 3)
    (c1State_times_nodup 3)).1

/-- Claim C1 counterexample: 1050 healthy completed entries with distinct
`last_accessed` times under the default configuration
(`max_entries = 1000`, `preserve_recent = 100`): `cleanup()` leaves 100
entries, not the `max_entries = 1000` the claim asserts. -/
theorem C1_counterexample_1050_entries :
    (cleanup ({} : CacheConfig) 0 (c1State 1050)).1.metadata.length = 100 ∧
    (100 : ℕ) ≠ 1000 := by
  have h := cleanup_overflow_spec {} 0 (c1State 1050)
    (c1State_clean 1050 {})
    (by rw [c1State_length]; norm_num)
    (c1State_keys_nodup 1050)
    (c1State_times_nodup 1050)
  refine ⟨?_, by norm_num⟩
  rw [h.1]
  decide
